import Mathlib

/-!
Verification of the copilotfeedback core: a shallow embedding of
`parser.py` (unified-diff parsing), `models.py` (the data model),
`app.py`'s comment-submission path, and `output.py`'s feedback emitter,
with theorems settling the specification's claims about them.

Python `str` is modelled as `String`, `int | None` as `Option Nat`
(all line numbers produced by the code are non-negative), Python lists
as `List`, and a Python `dict[int, Comment]` as an association list
`List (Nat × Comment)` whose order is the dict's insertion order
(Python dicts iterate in insertion order; assigning to an existing key
keeps its place, assigning a fresh key appends).
-/

/-- `models.DiffLine`: one physical line of the diff.  `line_type` is the
one-character Python string `' '`, `'+'`, `'-'` or `'@'`. -/
structure DiffLine where
  line_type : String
  content : String
  old_line_no : Option Nat
  new_line_no : Option Nat
  file_path : String
  hunk_header : String
deriving Repr, DecidableEq

/-- `models.Comment`: one reviewer annotation. -/
structure Comment where
  file : String
  line_no : Option Nat
  hunk : String
  content : String
  context : String
deriving Repr, DecidableEq

/-- `models.DiffFile`: one file section; `comments` models the Python
`dict[int, Comment]` keyed by position-within-file, in insertion order. -/
structure DiffFile where
  path : String
  lines : List DiffLine := []
  comments : List (Nat × Comment) := []
deriving Repr, DecidableEq

/-- `models.Diff`: the whole document. -/
structure Diff where
  files : List DiffFile := []
deriving Repr, DecidableEq

/-! ## Kernel-computable Python string primitives

Core `String.trim`/`startsWith`/`splitOn` are compiled with well-founded
loops that the kernel cannot evaluate, so the Python string operations the
code uses are given structural implementations over `String.data`. -/

/-- Is the first list a prefix of the second? -/
def isPrefixL : List Char → List Char → Bool
  | [], _ => true
  | _ :: _, [] => false
  | p :: ps, c :: cs => p == c && isPrefixL ps cs

/-- Python `s.startswith(p)`. -/
def pyStartsWith (s p : String) : Bool :=
  isPrefixL p.data s.data

/-- Python slicing `s[n:]`. -/
def pyDrop (s : String) (n : Nat) : String :=
  ⟨s.data.drop n⟩

/-- The whitespace characters Python `str.strip()` removes (the ASCII ones;
every character these diffs contain is ASCII). -/
def isPySpace (c : Char) : Bool :=
  c == ' ' || c == '\t' || c == '\n' || c == '\r' || c == '\x0b' || c == '\x0c'

/-- Python `s.strip()`. -/
def pyTrim (s : String) : String :=
  ⟨(((s.data.dropWhile isPySpace).reverse.dropWhile isPySpace).reverse : List Char)⟩

/-- Worker for `pySplitOn`: scan left to right, splitting at each
non-overlapping occurrence of `sep`; `fuel` bounds the recursion and is
chosen larger than the input so exhaustion is unreachable. -/
def splitGo (sep : List Char) : Nat → List Char → List Char → List (List Char)
  | 0, cs, acc => [acc.reverse ++ cs]
  | _ + 1, [], acc => [acc.reverse]
  | fuel + 1, c :: cs, acc =>
    if isPrefixL sep (c :: cs) then
      acc.reverse :: splitGo sep fuel ((c :: cs).drop sep.length) []
    else splitGo sep fuel cs (c :: acc)

/-- Python `s.split(sep)` for a non-empty separator. -/
def pySplitOn (s sep : String) : List String :=
  (splitGo sep.data (s.data.length + 1) s.data []).map fun cs => ⟨cs⟩

/-! ## The parser (`parser.parse_diff`) -/

/-- Greedily split off a maximal run of leading decimal digits
(the regex atom `\d+` / `\d*`). -/
def takeDigits : List Char → List Char × List Char
  | [] => ([], [])
  | c :: cs =>
    if c.isDigit then
      let (d, r) := takeDigits cs
      (c :: d, r)
    else ([], c :: cs)

/-- Numeric value of a digit run, as Python `int()` computes it. -/
def natOfDigits (ds : List Char) : Nat :=
  ds.foldl (fun a c => a * 10 + (c.toNat - 48)) 0

/-- Drop an expected literal; `none` when the input does not start with it. -/
def dropLit : List Char → List Char → Option (List Char)
  | [], s => some s
  | _, [] => none
  | p :: ps, c :: cs => if p = c then dropLit ps cs else none

/-- The regex atom `,?\d*`: an optional comma followed by digits. -/
def skipCommaDigits (cs : List Char) : List Char :=
  (match cs with
   | ',' :: rest => rest
   | other => other).dropWhile Char.isDigit

/-- `re.match(r"@@ -(\d+),?\d* \+(\d+),?\d* @@.*", line)`, returning the two
captured integers.  The regex is deterministic on this pattern (each greedy
digit run is delimited by a non-digit), so no backtracking is needed. -/
def matchHunk (line : String) : Option (Nat × Nat) :=
  match dropLit "@@ -".data line.data with
  | none => none
  | some r1 =>
    let (d1, r2) := takeDigits r1
    if d1.isEmpty then none
    else
      match dropLit " +".data (skipCommaDigits r2) with
      | none => none
      | some r4 =>
        let (d2, r5) := takeDigits r4
        if d2.isEmpty then none
        else
          match dropLit " @@".data (skipCommaDigits r5) with
          | none => none
          | some _ => some (natOfDigits d1, natOfDigits d2)

/-- `line.split("@@")[1].strip() if "@@" in line else line`.  Python's
`"@@" in line` holds exactly when the split has a second element. -/
def hunkSeg (line : String) : String :=
  match pySplitOn line "@@" with
  | _ :: second :: _ => pyTrim second
  | _ => line

/-- Same expression with the indexing `[1]` kept fallible, to show the
guard makes it safe (`parse_diff` never raises). -/
def hunkSegE (line : String) : Option String :=
  if 2 ≤ (pySplitOn line "@@").length then
    ((pySplitOn line "@@").get? 1).map pyTrim
  else some line

/-- The parser's running state: the `diff`, `current_file`, `current_hunk`,
`old_line_no` and `new_line_no` locals of `parse_diff`. -/
structure ParseState where
  files : List DiffFile
  current_file : Option DiffFile
  current_hunk : String
  old_line_no : Nat
  new_line_no : Nat
deriving Repr, DecidableEq

/-- The locals at entry of `parse_diff`. -/
def initState : ParseState :=
  { files := [], current_file := none, current_hunk := "", old_line_no := 0, new_line_no := 0 }

/-- `if current_file: diff.files.append(current_file)`. -/
def appendCurrent (files : List DiffFile) : Option DiffFile → List DiffFile
  | some f => files ++ [f]
  | none => files

/-- Path extraction of the `+++` branch: `line[4:].strip()`, then a leading
`b/` stripped. -/
def ppPath (l : String) : String :=
  let p := pyTrim (pyDrop l 4)
  if pyStartsWith p "b/" then pyDrop p 2 else p

/-- The `HunkHeader` record the `@@` branch appends: full line text as both
`content` and `hunk_header`, no line numbers. -/
def hunkRecord (path l : String) : DiffLine :=
  { line_type := "@", content := l, old_line_no := none, new_line_no := none,
    file_path := path, hunk_header := l }

/-- The `@@` branch of `parse_diff`: on a regex match the counters are reset
and `current_hunk` becomes the text between the first two `@@`; then a
`HunkHeader` record is appended if a current file exists. -/
def hunkStep (st : ParseState) (l : String) : ParseState :=
  let st1 :=
    match matchHunk l with
    | some (o, n) =>
      { st with old_line_no := o, new_line_no := n, current_hunk := hunkSeg l }
    | none => st
  match st1.current_file with
  | some f =>
    { st1 with current_file := some { f with lines := f.lines ++ [hunkRecord f.path l] } }
  | none => st1

/-- The `@@` branch with the fallible `[1]` indexing kept explicit. -/
def hunkStepE (st : ParseState) (l : String) : Option ParseState :=
  ((match matchHunk l with
    | some (o, n) =>
      (hunkSegE l).map fun seg =>
        { st with old_line_no := o, new_line_no := n, current_hunk := seg }
    | none => some st) : Option ParseState).map fun (st1 : ParseState) =>
    match st1.current_file with
    | some f =>
      { st1 with current_file := some { f with lines := f.lines ++ [hunkRecord f.path l] } }
    | none => st1

/-- The record and state produced by a `+` content line: Added, marker
stripped, new-line number attached, new counter incremented. -/
def addedRecord (st : ParseState) (f : DiffFile) (l : String) : DiffLine :=
  { line_type := "+", content := pyDrop l 1, old_line_no := none,
    new_line_no := some st.new_line_no, file_path := f.path,
    hunk_header := st.current_hunk }

def addedResult (st : ParseState) (f : DiffFile) (l : String) : ParseState :=
  { st with
    current_file := some { f with lines := f.lines ++ [addedRecord st f l] },
    new_line_no := st.new_line_no + 1 }

/-- The record and state produced by a `-` content line: Removed, marker
stripped, old-line number attached, old counter incremented. -/
def removedRecord (st : ParseState) (f : DiffFile) (l : String) : DiffLine :=
  { line_type := "-", content := pyDrop l 1, old_line_no := some st.old_line_no,
    new_line_no := none, file_path := f.path,
    hunk_header := st.current_hunk }

def removedResult (st : ParseState) (f : DiffFile) (l : String) : ParseState :=
  { st with
    current_file := some { f with lines := f.lines ++ [removedRecord st f l] },
    old_line_no := st.old_line_no + 1 }

/-- The record and state produced by a space content line: Context, one
character stripped, both numbers attached, both counters incremented. -/
def contextRecord (st : ParseState) (f : DiffFile) (l : String) : DiffLine :=
  { line_type := " ", content := pyDrop l 1, old_line_no := some st.old_line_no,
    new_line_no := some st.new_line_no, file_path := f.path,
    hunk_header := st.current_hunk }

def contextResult (st : ParseState) (f : DiffFile) (l : String) : ParseState :=
  { st with
    current_file := some { f with lines := f.lines ++ [contextRecord st f l] },
    old_line_no := st.old_line_no + 1,
    new_line_no := st.new_line_no + 1 }

/-- The content branch (`elif current_file and line:`): classify by the
leading character; lines starting with any character other than `+`, `-`
or a space fall through and are dropped. -/
def contentStep (st : ParseState) (l : String) : ParseState :=
  match st.current_file with
  | none => st
  | some f =>
    if l = "" then st
    else if pyStartsWith l "+" then addedResult st f l
    else if pyStartsWith l "-" then removedResult st f l
    else if pyStartsWith l " " then contextResult st f l
    else st

/-- One iteration of `parse_diff`'s loop body on one input line. -/
def parseLine (st : ParseState) (l : String) : ParseState :=
  if pyStartsWith l "diff --git" then
    { st with files := appendCurrent st.files st.current_file, current_file := none }
  else if pyStartsWith l "+++" then
    { st with current_file := some { path := ppPath l, lines := [], comments := [] } }
  else if pyStartsWith l "@@" then hunkStep st l
  else contentStep st l

/-- The loop body with the one fallible operation kept explicit. -/
def parseLineE (st : ParseState) (l : String) : Option ParseState :=
  if pyStartsWith l "diff --git" then
    some { st with files := appendCurrent st.files st.current_file, current_file := none }
  else if pyStartsWith l "+++" then
    some { st with current_file := some { path := ppPath l, lines := [], comments := [] } }
  else if pyStartsWith l "@@" then hunkStepE st l
  else some (contentStep st l)

/-- The loop of `parse_diff` over the split lines (`for line in lines`). -/
def parseLines (st : ParseState) (ls : List String) : ParseState :=
  ls.foldl parseLine st

/-- The loop with the fallible operation kept explicit. -/
def parseLinesE (st : ParseState) (ls : List String) : Option ParseState :=
  ls.foldlM parseLineE st

/-- `parser.parse_diff`: split on newlines, run the loop, append any
in-progress file at end of input. -/
def parse_diff (s : String) : Diff :=
  let st := parseLines initState (pySplitOn s "\n")
  { files := appendCurrent st.files st.current_file }

/-- `parse_diff` with the fallible operation kept explicit. -/
def parseDiffE (s : String) : Option Diff :=
  (parseLinesE initState (pySplitOn s "\n")).map fun st =>
    { files := appendCurrent st.files st.current_file }

/-! ## The comment store (`app.DiffReviewApp.on_input_submitted` and friends) -/

/-- Python `a or b` on `int | None` operands: `a` unless it is `None` or `0`. -/
def pyOr (a b : Option Nat) : Option Nat :=
  match a with
  | some (Nat.succ k) => some (Nat.succ k)
  | _ => b

/-- Assignment `d[k] = v` on a Python dict in association-list form: an
existing key keeps its place with the new value, a fresh key is appended. -/
def dictInsert (d : List (Nat × Comment)) (k : Nat) (v : Comment) : List (Nat × Comment) :=
  if d.any (fun p => p.1 == k) then
    d.map fun p => if p.1 == k then (k, v) else p
  else d ++ [(k, v)]

/-- Dict lookup `d.get(k)`. -/
def dictGet (d : List (Nat × Comment)) (k : Nat) : Option Comment :=
  match d.find? (fun p => p.1 == k) with
  | some p => some p.2
  | none => none

/-- The app's resolution of a flattened global line index (`line_to_file`
together with `all_lines`, built by flattening `diff.files` in order) into
the containing file's index and the line's position within that file. -/
def resolve : List DiffFile → Nat → Option (Nat × Nat)
  | [], _ => none
  | f :: fs, g =>
    if g < f.lines.length then some (0, g)
    else
      match resolve fs (g - f.lines.length) with
      | some (i, p) => some (i + 1, p)
      | none => none

/-- The app's "find the line index within the file by linear scan and
equality comparison" pattern (`file_line_idx` defaults to `0`). -/
def findLineIdx (lines : List DiffLine) (target : DiffLine) : Nat :=
  match lines.findIdx? (fun fl => fl == target) with
  | some i => i
  | none => 0

/-- The `Comment(...)` constructor call of `on_input_submitted`:
`line_no = line.new_line_no or line.old_line_no`, hunk and context copied
from the target line. -/
def mkComment (f : DiffFile) (line : DiffLine) (text : String) : Comment :=
  { file := f.path, line_no := pyOr line.new_line_no line.old_line_no,
    hunk := line.hunk_header, content := text, context := line.content }

/-- The document produced by a successful comment submission: the target
file's `comments` dict gains the new comment at the scanned-for index. -/
def upsertResult (d : Diff) (fi : Nat) (f : DiffFile) (line : DiffLine) (text : String) : Diff :=
  { files := d.files.set fi
      { f with comments :=
          dictInsert f.comments (findLineIdx f.lines line) (mkComment f line text) } }

/-- `DiffReviewApp.on_input_submitted` on a document, a flattened global
line index and the submitted input value: trim the value (`.strip()`);
an empty result cancels, leaving the document untouched; otherwise the
index resolves to a file and target line, the position is re-derived by
the linear equality scan, and the comment is stored there.  `none` models
the `KeyError`/`IndexError` of an out-of-range index (unreachable from
the UI, which only submits while a real line is focused). -/
def on_input_submitted (d : Diff) (g : Nat) (value : String) : Option Diff :=
  let text := pyTrim value
  if text = "" then some d
  else
    match resolve d.files g with
    | none => none
    | some (fi, _pos) =>
      match d.files.get? fi with
      | none => none
      | some f =>
        match f.lines.get? _pos with
        | none => none
        | some line => some (upsertResult d fi f line text)

/-- `get_comment`: the dict lookup `file.comments.get(position)` at a
`(file_index, position_in_file)` pair. -/
def getComment (d : Diff) (fi pos : Nat) : Option Comment :=
  match d.files.get? fi with
  | some f => dictGet f.comments pos
  | none => none

/-! ## The feedback emitter (`output.generate_feedback`) -/

/-- One flat entry of the feedback record's `comments` list. -/
structure FeedbackEntry where
  file : String
  line : Option Nat
  hunk : String
  content : String
  context : String
deriving Repr, DecidableEq

/-- The dictionary appended per comment in `generate_feedback`. -/
def mkEntry (c : Comment) : FeedbackEntry :=
  { file := c.file, line := c.line_no, hunk := c.hunk, content := c.content,
    context := c.context }

/-- `output.generate_feedback`'s `comments` list: the nested loop
`for file in diff.files: for line_idx, comment in file.comments.items():
comments.append({...})`, appending into one accumulator.  The surrounding
timestamp, fixed `diff_command` label and the JSON file write are boundary
side effects carrying no ordering content. -/
def generate_feedback (d : Diff) : List FeedbackEntry :=
  d.files.foldl (fun acc f => f.comments.foldl (fun a kc => a ++ [mkEntry kc.2]) acc) []

/-! ## Concrete documents used to settle the claims -/

/-- The line sequence of the parser state's in-progress file, for stating
which records a single parsing step produces. -/
def linesOf (st : ParseState) : List DiffLine :=
  match st.current_file with
  | some f => f.lines
  | none => []

/-- The specification's worked scenario input. -/
def c6input : String :=
  "diff --git a/x b/x\n--- a/x\n+++ b/x\n@@ -1,2 +1,3 @@\n line1\n-line2\n+line2b\n+line3\n"

/-- The scenario input parsed. -/
def c6doc : Diff := parse_diff c6input

/-- The HunkHeader record of the scenario. -/
def c6rec0 : DiffLine :=
  { line_type := "@", content := "@@ -1,2 +1,3 @@", old_line_no := none,
    new_line_no := none, file_path := "x", hunk_header := "@@ -1,2 +1,3 @@" }

/-- The Context record of the scenario: `"line1"`, old 1, new 1. -/
def c6rec1 : DiffLine :=
  { line_type := " ", content := "line1", old_line_no := some 1,
    new_line_no := some 1, file_path := "x", hunk_header := "-1,2 +1,3" }

/-- The Removed record of the scenario: `"line2"`, old 2. -/
def c6rec2 : DiffLine :=
  { line_type := "-", content := "line2", old_line_no := some 2,
    new_line_no := none, file_path := "x", hunk_header := "-1,2 +1,3" }

/-- The first Added record of the scenario: `"line2b"`, new 2. -/
def c6rec3 : DiffLine :=
  { line_type := "+", content := "line2b", old_line_no := none,
    new_line_no := some 2, file_path := "x", hunk_header := "-1,2 +1,3" }

/-- The second Added record of the scenario: `"line3"`, new 3. -/
def c6rec4 : DiffLine :=
  { line_type := "+", content := "line3", old_line_no := none,
    new_line_no := some 3, file_path := "x", hunk_header := "-1,2 +1,3" }

/-- The single FileEntry the scenario should produce. -/
def c6file : DiffFile :=
  { path := "x", lines := [c6rec0, c6rec1, c6rec2, c6rec3, c6rec4], comments := [] }

/-- `c6doc` after a comment `"second"` on the Added `line2b` record
(flattened index 3, position 3 in the file). -/
def c1doc1 : Diff := (on_input_submitted c6doc 3 "second").getD { files := [] }

/-- `c1doc1` after a later comment `"first"` on the Context `line1` record
(flattened index 1, position 1 in the file — an earlier diff position). -/
def c1doc2 : Diff := (on_input_submitted c1doc1 1 "first").getD { files := [] }

/-- A diff whose hunk header declares new-file start `0`, so the Context
line carries `new_line_no = 0` alongside `old_line_no = 5`. -/
def c4doc : Diff := parse_diff "+++ b/x\n@@ -5,2 +0,0 @@\n foo\n"

/-- The Context record of `c4doc` (position 1 of file 0). -/
def c4line : DiffLine :=
  { line_type := " ", content := "foo", old_line_no := some 5, new_line_no := some 0,
    file_path := "x", hunk_header := "-5,2 +0,0" }

/-- The single file of `c4doc`. -/
def c4file : DiffFile :=
  { path := "x", lines := [hunkRecord "x" "@@ -5,2 +0,0 @@", c4line], comments := [] }

/-- `c4doc` after submitting `"note"` on its Context line. -/
def c4doc' : Diff := (on_input_submitted c4doc 1 "note").getD { files := [] }

/-- A diff with two value-identical Context records (two identical hunks),
exercising the find-by-equality position scan. -/
def c5doc : Diff := parse_diff "+++ b/x\n@@ -1,1 +1,1 @@\n dup\n@@ -1,1 +1,1 @@\n dup\n"

/-- `c5doc` after submitting `"note"` on the second duplicate Context line
(flattened index 3, position 3 in the file). -/
def c5docA : Diff := (on_input_submitted c5doc 3 "note").getD { files := [] }

/-- `c5doc` after submitting the padded text `" hi "` on the first Context
line (flattened index 1). -/
def c5docB : Diff := (on_input_submitted c5doc 1 " hi ").getD { files := [] }

/-- `c6doc` after submitting `"ok"` on its Context line. -/
def c5docW : Diff := (on_input_submitted c6doc 1 "ok").getD { files := [] }

/-- An empty in-progress FileEntry, used to instantiate the per-step
theorems. -/
def fW : DiffFile := { path := "x", lines := [], comments := [] }

/-- A parser state in the middle of a file section, used to instantiate the
per-step theorems. -/
def stW : ParseState :=
  { files := [], current_file := some fW, current_hunk := "hseg",
    old_line_no := 4, new_line_no := 9 }

/-- The Context record `parseLine stW " line1"` appends. -/
def cwrec : DiffLine := contextRecord stW fW " line1"

/-- The Added record of the C9 concrete scenario's surviving second file. -/
def c9rec : DiffLine :=
  { line_type := "+", content := "y", old_line_no := none, new_line_no := some 1,
    file_path := "b", hunk_header := "" }

/-- The single surviving FileEntry of the C9 concrete scenario. -/
def c9file : DiffFile := { path := "b", lines := [c9rec], comments := [] }

/-- A comment value for instantiating the dict-level theorems. -/
def cW : Comment :=
  { file := "x", line_no := some 1, hunk := "h", content := "c", context := "ctx" }

/-! ## Helper lemmas -/

theorem hunkSegE_eq (l : String) : hunkSegE l = some (hunkSeg l) := by
  unfold hunkSegE hunkSeg
  cases h : pySplitOn l "@@" with
  | nil => simp [h]
  | cons a t =>
    cases t with
    | nil => simp [h]
    | cons b t2 => simp [h]

theorem hunkStepE_eq (st : ParseState) (l : String) :
    hunkStepE st l = some (hunkStep st l) := by
  unfold hunkStepE hunkStep
  cases hm : matchHunk l with
  | none => simp
  | some p =>
    cases p with
    | mk o n => simp [hunkSegE_eq l]

theorem parseLineE_eq (st : ParseState) (l : String) :
    parseLineE st l = some (parseLine st l) := by
  unfold parseLineE parseLine
  split_ifs <;> simp [hunkStepE_eq]

theorem parseLinesE_eq (ls : List String) :
    ∀ st : ParseState, parseLinesE st ls = some (parseLines st ls) := by
  induction ls with
  | nil => intro st; rfl
  | cons l ls ih =>
    intro st
    unfold parseLinesE parseLines at ih ⊢
    rw [List.foldlM_cons, List.foldl_cons, parseLineE_eq]
    exact ih (parseLine st l)

theorem parseDiffE_eq (s : String) : parseDiffE s = some (parse_diff s) := by
  unfold parseDiffE parse_diff
  rw [parseLinesE_eq]
  rfl

theorem find?_eq_none_of_not_any (cs : List (Nat × Comment)) (k : Nat)
    (h : cs.any (fun p => p.1 == k) = false) :
    cs.find? (fun p => p.1 == k) = none := by
  induction cs with
  | nil => rfl
  | cons p ps ih =>
    rw [List.any_cons] at h
    cases hp : (p.1 == k) with
    | true => rw [hp] at h; simp at h
    | false =>
      rw [hp] at h
      simp only [Bool.false_or] at h
      rw [List.find?_cons_of_neg _ (by simp [hp])]
      exact ih h

theorem find?_append_none {p : (Nat × Comment) → Bool} :
    ∀ (l1 l2 : List (Nat × Comment)), l1.find? p = none →
      (l1 ++ l2).find? p = l2.find? p := by
  intro l1
  induction l1 with
  | nil => intro l2 _; rfl
  | cons a as ih =>
    intro l2 h
    cases hp : p a with
    | true => rw [List.find?_cons_of_pos _ hp] at h; exact absurd h (by simp)
    | false =>
      rw [List.find?_cons_of_neg _ (by simp [hp])] at h
      rw [List.cons_append, List.find?_cons_of_neg _ (by simp [hp])]
      exact ih l2 h

theorem find?_map_update (k : Nat) (c : Comment) :
    ∀ cs : List (Nat × Comment), cs.any (fun p => p.1 == k) = true →
      (cs.map fun p => if p.1 == k then (k, c) else p).find? (fun p => p.1 == k)
        = some (k, c) := by
  intro cs
  induction cs with
  | nil => intro h; simp at h
  | cons p ps ih =>
    intro h
    cases hp : (p.1 == k) with
    | true =>
      rw [List.map_cons, if_pos (by simp [hp] : (p.1 == k) = true)]
      simp [List.find?]
    | false =>
      rw [List.any_cons, hp] at h
      simp only [Bool.false_or] at h
      rw [List.map_cons, if_neg (by simp [hp])]
      rw [List.find?_cons_of_neg _ (by simp [hp])]
      exact ih h

theorem dictGet_dictInsert_self (cs : List (Nat × Comment)) (k : Nat) (c : Comment) :
    dictGet (dictInsert cs k c) k = some c := by
  unfold dictGet dictInsert
  cases h : cs.any (fun p => p.1 == k) with
  | true =>
    rw [if_pos (by simp [h])]
    rw [find?_map_update k c cs h]
  | false =>
    rw [if_neg (by simp [h])]
    rw [find?_append_none cs [(k, c)] (find?_eq_none_of_not_any cs k h)]
    simp [List.find?]

theorem get?_set_self (l : List DiffFile) :
    ∀ (i : Nat) (a b : DiffFile), l.get? i = some b → (l.set i a).get? i = some a := by
  induction l with
  | nil => intro i a b h; simp [List.get?] at h
  | cons x xs ih =>
    intro i a b h
    cases i with
    | zero => rfl
    | succ n =>
      rw [List.get?_cons_succ] at h
      rw [List.set_cons_succ, List.get?_cons_succ]
      exact ih n a b h

theorem foldl_emit_inner (cs : List (Nat × Comment)) :
    ∀ a : List FeedbackEntry,
      cs.foldl (fun a kc => a ++ [mkEntry kc.2]) a = a ++ cs.map (fun kc => mkEntry kc.2) := by
  induction cs with
  | nil => intro a; simp
  | cons hd tl ih =>
    intro a
    rw [List.foldl_cons, List.map_cons, ih (a ++ [mkEntry hd.2])]
    simp

theorem foldl_emit_outer (fs : List DiffFile) :
    ∀ a : List FeedbackEntry,
      fs.foldl (fun acc f => f.comments.foldl (fun a kc => a ++ [mkEntry kc.2]) acc) a
        = a ++ (fs.map fun f => f.comments.map fun kc => mkEntry kc.2).flatten := by
  induction fs with
  | nil => intro a; simp
  | cons f fs ih =>
    intro a
    rw [List.foldl_cons, foldl_emit_inner, ih, List.map_cons, List.flatten_cons]
    simp

theorem on_input_submitted_some (d : Diff) (g : Nat) (v : String) (fi pos : Nat)
    (f : DiffFile) (line : DiffLine)
    (ht : ¬ pyTrim v = "") (hres : resolve d.files g = some (fi, pos))
    (hf : d.files.get? fi = some f) (hl : f.lines.get? pos = some line) :
    on_input_submitted d g v = some (upsertResult d fi f line (pyTrim v)) := by
  unfold on_input_submitted
  simp only [if_neg ht, hres, hf, hl]

theorem getComment_upsertResult (d : Diff) (fi : Nat) (f : DiffFile) (line : DiffLine)
    (text : String) (hf : d.files.get? fi = some f) :
    getComment (upsertResult d fi f line text) fi (findLineIdx f.lines line)
      = some (mkComment f line text) := by
  unfold getComment upsertResult
  rw [get?_set_self d.files fi _ f hf]
  exact dictGet_dictInsert_self _ _ _

theorem contentStep_hunk (st : ParseState) (l : String) :
    (contentStep st l).current_hunk = st.current_hunk := by
  unfold contentStep
  cases st.current_file with
  | none => rfl
  | some f => split_ifs <;> rfl

theorem contentStep_files (st : ParseState) (l : String) :
    (contentStep st l).files = st.files := by
  unfold contentStep
  cases st.current_file with
  | none => rfl
  | some f => split_ifs <;> rfl

theorem hunkStep_files (st : ParseState) (l : String) :
    (hunkStep st l).files = st.files := by
  rcases st with ⟨fs, cf, ch, ol, nl⟩
  unfold hunkStep
  cases matchHunk l with
  | none => cases cf <;> rfl
  | some p =>
    cases p with
    | mk o n => cases cf <;> rfl

/-! ## Claim theorems -/

/-- C6: parsing the worked-scenario input yields exactly one FileEntry with
path `x` whose line sequence is `[HunkHeader, Context("line1",1,1),
Removed("line2", old=2), Added("line2b", new=2), Added("line3", new=3)]`
in that order (full record equality, pinning every field the code sets). -/
theorem parse_scenario_exact :
    parse_diff c6input = { files := [c6file] } := by
  rfl

/-- C7: submitting content whose trimmed form is empty is a cancellation:
for every document and flattened position the submission returns the
document unchanged, so the comment mappings are exactly as before. -/
theorem whitespace_comment_cancel (d : Diff) (g : Nat) (v : String)
    (h : pyTrim v = "") : on_input_submitted d g v = some d := by
  simp [on_input_submitted, h]

/-- C7 witness: whitespace-only content `"   "` on the empty document. -/
theorem whitespace_comment_cancel_witness :
    on_input_submitted { files := [] } 0 "   " = some { files := [] } :=
  whitespace_comment_cancel { files := [] } 0 "   " (by decide)

/-- C8: `parse_diff` runs to completion on every input string — the version
with its one fallible operation (the `split("@@")[1]` indexing) modelled
explicitly always returns a document — and a line seen while no file
section is open that matches no marker is skipped, leaving the state
unchanged. -/
theorem parse_total_skip :
    (∀ s : String, parseDiffE s = some (parse_diff s)) ∧
    (∀ (st : ParseState) (l : String), st.current_file = none →
      pyStartsWith l "diff --git" = false → pyStartsWith l "+++" = false →
      pyStartsWith l "@@" = false → parseLine st l = st) := by
  constructor
  · exact parseDiffE_eq
  · intro st l hcf h1 h2 h3
    simp [parseLine, contentStep, h1, h2, h3, hcf]

/-- C8 witness: the empty input parses, and a garbage line outside any file
section is skipped. -/
theorem parse_total_skip_witness :
    parseDiffE "" = some (parse_diff "") ∧ parseLine initState "garbage" = initState :=
  ⟨parse_total_skip.1 "",
   parse_total_skip.2 initState "garbage" rfl (by decide) (by decide) (by decide)⟩

/-- C1 counterexample: the emitter walks each file's comment dict in
insertion order, not position order.  On the scenario document, commenting
position 3 first and position 1 second makes `generate_feedback` list the
position-3 entry before the position-1 entry, although position 1 is
earlier in the diff's line order — the claimed position-ordered sequence
is not produced. -/
theorem emit_not_position_order_cex :
    on_input_submitted c6doc 3 "second" = some c1doc1 ∧
    on_input_submitted c1doc1 1 "first" = some c1doc2 ∧
    generate_feedback c1doc2 =
      [{ file := "x", line := some 2, hunk := "-1,2 +1,3", content := "second",
         context := "line2b" },
       { file := "x", line := some 1, hunk := "-1,2 +1,3", content := "first",
         context := "line1" }] ∧
    ¬ generate_feedback c1doc2 =
      [{ file := "x", line := some 1, hunk := "-1,2 +1,3", content := "first",
         context := "line1" },
       { file := "x", line := some 2, hunk := "-1,2 +1,3", content := "second",
         context := "line2b" }] := by
  refine ⟨rfl, rfl, rfl, ?_⟩
  decide

/-- C2 counterexample: after the matching hunk line `@@ -1,2 +1,3 @@`, the
Context record carries `hunk_header = "-1,2 +1,3"` (the stripped text
between the two `@@`), not the full hunk line text. -/
theorem hunk_header_full_text_cex :
    matchHunk "@@ -1,2 +1,3 @@" = some (1, 1) ∧
    parse_diff "+++ b/x\n@@ -1,2 +1,3 @@\n line1\n" =
      { files := [{ path := "x", lines := [hunkRecord "x" "@@ -1,2 +1,3 @@", c6rec1],
                    comments := [] }] } ∧
    c6rec1.hunk_header = "-1,2 +1,3" ∧
    ¬ ("-1,2 +1,3" = "@@ -1,2 +1,3 @@") := by
  refine ⟨rfl, rfl, rfl, ?_⟩
  decide

/-- C3 counterexample: while a current file exists, the non-empty line
`"xyz"` — which begins with a character that is not `+`, `-` or a space and
is no marker line — produces no record at all (the claimed Context record
is missing), so the file parses with an empty line sequence. -/
theorem other_marker_dropped_cex :
    parse_diff "+++ b/x\nxyz\n" = { files := [{ path := "x", lines := [], comments := [] }] } ∧
    ¬ ("xyz" = "") ∧
    pyStartsWith "xyz" "diff --git" = false ∧ pyStartsWith "xyz" "+++" = false ∧
    pyStartsWith "xyz" "@@" = false ∧ pyStartsWith "xyz" "+" = false ∧
    pyStartsWith "xyz" "-" = false ∧ pyStartsWith "xyz" " " = false := by
  refine ⟨rfl, ?_, rfl, rfl, rfl, rfl, rfl, rfl⟩
  decide

/-- C4 counterexample: the Context line of `c4doc` has
`new_line_no = some 0` (present and equal to 0), yet the stored comment's
`line_number` is 5 — the old-line number — because Python's
`new_line_no or old_line_no` treats 0 as absent. -/
theorem comment_line_no_zero_cex :
    c4doc = { files := [c4file] } ∧
    c4line.new_line_no = some 0 ∧
    on_input_submitted c4doc 1 "note" = some c4doc' ∧
    getComment c4doc' 0 1 =
      some { file := "x", line_no := some 5, hunk := "-5,2 +0,0", content := "note",
             context := "foo" } ∧
    ¬ ((some 5 : Option Nat) = some 0) := by
  refine ⟨rfl, rfl, rfl, rfl, ?_⟩
  decide

/-- C5 counterexample, two failure modes.  (a) In `c5doc` the record at
position 3 is value-equal to the one at position 1, so the equality scan
stores the submitted comment at position 1 and `get_comment` at the
submitted position 3 finds nothing.  (b) The stored content is the
trimmed text `"hi"`, not the submitted text `" hi "`. -/
theorem upsert_get_cex :
    resolve c5doc.files 3 = some (0, 3) ∧
    on_input_submitted c5doc 3 "note" = some c5docA ∧
    getComment c5docA 0 3 = none ∧
    on_input_submitted c5doc 1 " hi " = some c5docB ∧
    getComment c5docB 0 1 =
      some { file := "x", line_no := some 1, hunk := "-1,1 +1,1", content := "hi",
             context := "dup" } ∧
    ¬ ("hi" = " hi ") := by
  refine ⟨rfl, rfl, rfl, rfl, rfl, ?_⟩
  decide

theorem map_fst_update (k : Nat) (c : Comment) (cs : List (Nat × Comment)) :
    (cs.map fun p => if p.1 == k then (k, c) else p).map Prod.fst = cs.map Prod.fst := by
  induction cs with
  | nil => rfl
  | cons p ps ih =>
    rw [List.map_cons, List.map_cons, List.map_cons, ih]
    cases hp : (p.1 == k) with
    | true =>
      have hk : p.1 = k := by simpa using hp
      rw [if_pos (by simp [hp])]
      rw [← hk]
    | false => rw [if_neg (by simp [hp])]

theorem hunkStep_hunk_some (st : ParseState) (l : String) (o n : Nat)
    (hm : matchHunk l = some (o, n)) : (hunkStep st l).current_hunk = hunkSeg l := by
  rcases st with ⟨fs, cf, ch, ol, nl⟩
  unfold hunkStep
  rw [hm]
  cases cf <;> rfl

theorem hunkStep_hunk_none (st : ParseState) (l : String)
    (hm : matchHunk l = none) : (hunkStep st l).current_hunk = st.current_hunk := by
  rcases st with ⟨fs, cf, ch, ol, nl⟩
  unfold hunkStep
  rw [hm]
  cases cf <;> rfl

/-- C1 (amended): the emitter walks every FileEntry in document order and,
within each file, the (position, comment) pairs in the comment dict's
iteration order, which is insertion order: its output is the per-file
concatenation of the dict entries as stored; creating a comment at a fresh
position appends it at the end of its file's dict, and re-submitting at an
existing position keeps the dict's key order unchanged.  So comments are
emitted in creation order within a file, not in position order. -/
theorem emit_insertion_order :
    (∀ d : Diff, generate_feedback d =
      (d.files.map fun f => f.comments.map fun kc => mkEntry kc.2).flatten) ∧
    (∀ (cs : List (Nat × Comment)) (k : Nat) (c : Comment),
      cs.any (fun p => p.1 == k) = false → dictInsert cs k c = cs ++ [(k, c)]) ∧
    (∀ (cs : List (Nat × Comment)) (k : Nat) (c : Comment),
      cs.any (fun p => p.1 == k) = true →
        (dictInsert cs k c).map Prod.fst = cs.map Prod.fst) := by
  refine ⟨?_, ?_, ?_⟩
  · intro d
    unfold generate_feedback
    rw [foldl_emit_outer]
    rfl
  · intro cs k c h
    unfold dictInsert
    rw [if_neg (by simp [h])]
  · intro cs k c h
    unfold dictInsert
    rw [if_pos (by simp [h])]
    exact map_fst_update k c cs

/-- C1 witness: the empty document emits nothing; a fresh key appends to
the dict; overwriting the only key keeps the key order. -/
theorem emit_insertion_order_witness :
    generate_feedback { files := [] } = ([] : List FeedbackEntry) ∧
    dictInsert [(1, cW)] 0 cW = [(1, cW), (0, cW)] ∧
    (dictInsert [(1, cW)] 1 cW).map Prod.fst = [1] := by
  refine ⟨?_, ?_, ?_⟩
  · exact (emit_insertion_order.1 { files := [] }).trans rfl
  · exact emit_insertion_order.2.1 [(1, cW)] 0 cW (by decide)
  · exact (emit_insertion_order.2.2 [(1, cW)] 1 cW (by decide)).trans rfl

/-- C2 (amended): a hunk line matching the numeric pattern makes the
current hunk header the stripped text between the line's first two `@@`
markers (`line.split("@@")[1].strip()`), not the full hunk line text;
every line that is not a hunk line, or is one that fails the pattern,
preserves the current hunk header; and every record a content line appends
carries the current hunk header visible at that moment. -/
theorem hunk_header_segment :
    (∀ (st : ParseState) (l : String) (o n : Nat),
      pyStartsWith l "diff --git" = false → pyStartsWith l "+++" = false →
      pyStartsWith l "@@" = true → matchHunk l = some (o, n) →
      (parseLine st l).current_hunk = hunkSeg l) ∧
    (∀ (st : ParseState) (l : String),
      pyStartsWith l "@@" = false ∨ matchHunk l = none →
      (parseLine st l).current_hunk = st.current_hunk) ∧
    (∀ (st : ParseState) (l : String) (r : DiffLine),
      pyStartsWith l "diff --git" = false → pyStartsWith l "+++" = false →
      pyStartsWith l "@@" = false →
      r ∈ linesOf (parseLine st l) → r ∈ linesOf st ∨ r.hunk_header = st.current_hunk) := by
  refine ⟨?_, ?_, ?_⟩
  · intro st l o n h1 h2 h3 hm
    simp only [parseLine, h1, h2, h3, Bool.false_eq_true, if_false, if_true]
    exact hunkStep_hunk_some st l o n hm
  · intro st l h
    unfold parseLine
    by_cases h1 : pyStartsWith l "diff --git" = true
    · rw [if_pos h1]
    · rw [if_neg h1]
      by_cases h2 : pyStartsWith l "+++" = true
      · rw [if_pos h2]
      · rw [if_neg h2]
        by_cases h3 : pyStartsWith l "@@" = true
        · rw [if_pos h3]
          rcases h with h | h
          · rw [h3] at h; exact absurd h (by simp)
          · exact hunkStep_hunk_none st l h
        · rw [if_neg h3]
          exact contentStep_hunk st l
  · intro st l r h1 h2 h3 hr
    simp only [parseLine, h1, h2, h3, Bool.false_eq_true, if_false] at hr
    rcases st with ⟨fs, cf, ch, ol, nl⟩
    cases cf with
    | none => exact Or.inl hr
    | some f =>
      simp only [contentStep] at hr
      by_cases he : l = ""
      · rw [if_pos he] at hr; exact Or.inl hr
      · rw [if_neg he] at hr
        by_cases hp : pyStartsWith l "+" = true
        · rw [if_pos hp] at hr
          simp only [linesOf, addedResult, List.mem_append, List.mem_singleton] at hr
          rcases hr with hr | hr
          · exact Or.inl hr
          · exact Or.inr (by rw [hr]; rfl)
        · rw [if_neg hp] at hr
          by_cases hm : pyStartsWith l "-" = true
          · rw [if_pos hm] at hr
            simp only [linesOf, removedResult, List.mem_append, List.mem_singleton] at hr
            rcases hr with hr | hr
            · exact Or.inl hr
            · exact Or.inr (by rw [hr]; rfl)
          · rw [if_neg hm] at hr
            by_cases hs : pyStartsWith l " " = true
            · rw [if_pos hs] at hr
              simp only [linesOf, contextResult, List.mem_append, List.mem_singleton] at hr
              rcases hr with hr | hr
              · exact Or.inl hr
              · exact Or.inr (by rw [hr]; rfl)
            · rw [if_neg hs] at hr
              exact Or.inl hr

/-- C2 witness: a matching hunk line sets the segment text as current hunk
header; a non-hunk line preserves it; a Context record appended while the
current hunk header is `"hseg"` carries `"hseg"`. -/
theorem hunk_header_segment_witness :
    (parseLine stW "@@ -3,1 +7,2 @@").current_hunk = hunkSeg "@@ -3,1 +7,2 @@" ∧
    (parseLine stW "zzz").current_hunk = stW.current_hunk ∧
    (cwrec ∈ linesOf stW ∨ cwrec.hunk_header = stW.current_hunk) :=
  ⟨hunk_header_segment.1 stW "@@ -3,1 +7,2 @@" 3 7 (by decide) (by decide) (by decide)
    (by decide),
   hunk_header_segment.2.1 stW "zzz" (Or.inl (by decide)),
   hunk_header_segment.2.2 stW " line1" cwrec (by decide) (by decide) (by decide) (by decide)⟩

/-- C3 (amended): while a current file exists, a non-empty non-marker line
beginning with `+` yields an Added record, with `-` a Removed record, and
with a space a Context record (marker stripped, counters attached and
incremented as coded); but a line beginning with any other character is
silently dropped — the state, including the file's line sequence, is left
unchanged, and no Context record is produced for it. -/
theorem content_line_classification :
    ∀ (st : ParseState) (f : DiffFile) (l : String),
      pyStartsWith l "diff --git" = false → pyStartsWith l "+++" = false →
      pyStartsWith l "@@" = false → st.current_file = some f → ¬ l = "" →
      (pyStartsWith l "+" = true → parseLine st l = addedResult st f l) ∧
      (pyStartsWith l "+" = false → pyStartsWith l "-" = true →
        parseLine st l = removedResult st f l) ∧
      (pyStartsWith l "+" = false → pyStartsWith l "-" = false →
        pyStartsWith l " " = true → parseLine st l = contextResult st f l) ∧
      (pyStartsWith l "+" = false → pyStartsWith l "-" = false →
        pyStartsWith l " " = false → parseLine st l = st) := by
  intro st f l h1 h2 h3 hcf he
  refine ⟨?_, ?_, ?_, ?_⟩
  · intro hp
    simp [parseLine, contentStep, h1, h2, h3, hcf, he, hp]
  · intro hp hm
    simp [parseLine, contentStep, h1, h2, h3, hcf, he, hp, hm]
  · intro hp hm hs
    simp [parseLine, contentStep, h1, h2, h3, hcf, he, hp, hm, hs]
  · intro hp hm hs
    simp [parseLine, contentStep, h1, h2, h3, hcf, he, hp, hm, hs]

/-- C3 witness: concrete `+`, `-`, space and other-character lines in the
middle of a file section. -/
theorem content_line_classification_witness :
    parseLine stW "+a" = addedResult stW fW "+a" ∧
    parseLine stW "-b" = removedResult stW fW "-b" ∧
    parseLine stW " c" = contextResult stW fW " c" ∧
    parseLine stW "zzz" = stW :=
  ⟨(content_line_classification stW fW "+a" (by decide) (by decide) (by decide) rfl
      (by decide)).1 (by decide),
   (content_line_classification stW fW "-b" (by decide) (by decide) (by decide) rfl
      (by decide)).2.1 (by decide) (by decide),
   (content_line_classification stW fW " c" (by decide) (by decide) (by decide) rfl
      (by decide)).2.2.1 (by decide) (by decide) (by decide),
   (content_line_classification stW fW "zzz" (by decide) (by decide) (by decide) rfl
      (by decide)).2.2.2 (by decide) (by decide) (by decide)⟩

/-- C4 (amended): the stored comment's `line_number` equals the target
line's `new_line_number` when that is present *and nonzero*; when
`new_line_number` is absent or equal to 0 (Python `or` treats 0 as falsy)
it equals the target's `old_line_number`.  The comment lands in the dict
at the scanned-for index and is returned by the lookup there. -/
theorem comment_line_no_truthy :
    ∀ (d : Diff) (g : Nat) (v : String) (fi pos : Nat) (f : DiffFile)
      (line : DiffLine) (d' : Diff),
      ¬ pyTrim v = "" → resolve d.files g = some (fi, pos) →
      d.files.get? fi = some f → f.lines.get? pos = some line →
      on_input_submitted d g v = some d' →
      getComment d' fi (findLineIdx f.lines line) = some (mkComment f line (pyTrim v)) ∧
      (mkComment f line (pyTrim v)).line_no =
        (match line.new_line_no with
         | some (Nat.succ k) => some (Nat.succ k)
         | _ => line.old_line_no) := by
  intro d g v fi pos f line d' ht hres hf hl hsub
  rw [on_input_submitted_some d g v fi pos f line ht hres hf hl] at hsub
  obtain rfl : upsertResult d fi f line (pyTrim v) = d' := Option.some.inj hsub
  constructor
  · exact getComment_upsertResult d fi f line (pyTrim v) hf
  · cases hn : line.new_line_no with
    | none => simp [mkComment, pyOr, hn]
    | some k =>
      cases k with
      | zero => simp [mkComment, pyOr, hn]
      | succ m => simp [mkComment, pyOr, hn]

/-- C4 witness: on the zero-new-line document, the stored comment's
line number is the old-line number 5, not the present-but-zero new-line
number. -/
theorem comment_line_no_truthy_witness :
    getComment c4doc' 0 (findLineIdx c4file.lines c4line) =
      some (mkComment c4file c4line "note") ∧
    (mkComment c4file c4line "note").line_no = some 5 := by
  have h := comment_line_no_truthy c4doc 1 "note" 0 1 c4file c4line c4doc'
    (by decide) (by decide) (by decide) (by decide) (by decide)
  exact ⟨h.1, h.2.trans rfl⟩

/-- C5 (amended): for a position whose target line has no earlier
value-equal duplicate in its file (the equality scan resolves back to the
same position), submitting text with non-empty trimmed form and reading
the comment back at that position returns a CommentRecord whose `content`
is the *trimmed* submitted text and whose `context`/`hunk_header` are the
target line's content and hunk header. -/
theorem upsert_get_roundtrip :
    ∀ (d : Diff) (g : Nat) (v : String) (fi pos : Nat) (f : DiffFile)
      (line : DiffLine) (d' : Diff),
      ¬ pyTrim v = "" → resolve d.files g = some (fi, pos) →
      d.files.get? fi = some f → f.lines.get? pos = some line →
      findLineIdx f.lines line = pos →
      on_input_submitted d g v = some d' →
      getComment d' fi pos = some (mkComment f line (pyTrim v)) ∧
      (mkComment f line (pyTrim v)).content = pyTrim v ∧
      (mkComment f line (pyTrim v)).context = line.content ∧
      (mkComment f line (pyTrim v)).hunk = line.hunk_header := by
  intro d g v fi pos f line d' ht hres hf hl hidx hsub
  rw [on_input_submitted_some d g v fi pos f line ht hres hf hl] at hsub
  obtain rfl : upsertResult d fi f line (pyTrim v) = d' := Option.some.inj hsub
  refine ⟨?_, rfl, rfl, rfl⟩
  rw [← hidx]
  exact getComment_upsertResult d fi f line (pyTrim v) hf

/-- C5 witness: on the scenario document (all lines distinct), submitting
`"ok"` on the Context line at position 1 and reading position 1 back
returns the comment with content `"ok"`, context `"line1"` and the hunk
segment text. -/
theorem upsert_get_roundtrip_witness :
    getComment c5docW 0 1 = some (mkComment c6file c6rec1 "ok") ∧
    (mkComment c6file c6rec1 "ok").content = "ok" ∧
    (mkComment c6file c6rec1 "ok").context = "line1" ∧
    (mkComment c6file c6rec1 "ok").hunk = "-1,2 +1,3" := by
  have h := upsert_get_roundtrip c6doc 1 "ok" 0 1 c6file c6rec1 c5docW
    (by decide) (by decide) (by decide) (by decide) (by decide) (by decide)
  exact ⟨h.1, h.2.1.trans rfl, h.2.2.1.trans rfl, h.2.2.2.trans rfl⟩

/-- C9: a `+++` line replaces the current file with a fresh empty
FileEntry without appending the old one anywhere — the collected files
are untouched, so an in-progress FileEntry hit by a second `+++` before
any `diff --git` is discarded with all its records; indeed no line other
than `diff --git` ever appends to the collected files (the end-of-input
append is the only other one).  Concretely, on
`"+++ b/a\n+x\n+++ b/b\n+y\n"` the first file `a` and its Added record
`x` never appear in the result. -/
theorem second_file_header_discards :
    (∀ (st : ParseState) (l : String),
      pyStartsWith l "diff --git" = false → pyStartsWith l "+++" = true →
      (parseLine st l).files = st.files ∧
      (parseLine st l).current_file = some { path := ppPath l, lines := [], comments := [] }) ∧
    (∀ (st : ParseState) (l : String),
      pyStartsWith l "diff --git" = false → (parseLine st l).files = st.files) ∧
    parse_diff "+++ b/a\n+x\n+++ b/b\n+y\n" = { files := [c9file] } := by
  refine ⟨?_, ?_, ?_⟩
  · intro st l h1 h2
    constructor <;> simp [parseLine, h1, h2]
  · intro st l h1
    unfold parseLine
    rw [if_neg (by simp [h1])]
    by_cases h2 : pyStartsWith l "+++" = true
    · rw [if_pos h2]
    · rw [if_neg h2]
      by_cases h3 : pyStartsWith l "@@" = true
      · rw [if_pos h3]; exact hunkStep_files st l
      · rw [if_neg h3]; exact contentStep_files st l
  · rfl

/-- C9 witness: a `+++` line in the middle of a file section keeps the
collected files and opens the fresh file `z`; a content line also keeps
the collected files. -/
theorem second_file_header_discards_witness :
    (parseLine stW "+++ b/z").files = stW.files ∧
    (parseLine stW "+++ b/z").current_file = some { path := "z", lines := [], comments := [] } ∧
    (parseLine stW " c").files = stW.files := by
  have h := second_file_header_discards.1 stW "+++ b/z" (by decide) (by decide)
  exact ⟨h.1, h.2.trans rfl, second_file_header_discards.2.1 stW " c" (by decide)⟩

theorem hunkStep_counters_some (st : ParseState) (l : String) (o n : Nat)
    (hm : matchHunk l = some (o, n)) :
    (hunkStep st l).old_line_no = o ∧ (hunkStep st l).new_line_no = n := by
  rcases st with ⟨fs, cf, ch, ol, nl⟩
  unfold hunkStep
  rw [hm]
  cases cf <;> exact ⟨rfl, rfl⟩

theorem hunkStep_counters_none (st : ParseState) (l : String)
    (hm : matchHunk l = none) :
    (hunkStep st l).old_line_no = st.old_line_no ∧
    (hunkStep st l).new_line_no = st.new_line_no := by
  rcases st with ⟨fs, cf, ch, ol, nl⟩
  unfold hunkStep
  rw [hm]
  cases cf <;> exact ⟨rfl, rfl⟩

/-- C10: the running counters change only at a hunk line matching the
numeric pattern (reset to the parsed starting values) and at the
increments of Added/Removed/Context lines; `diff --git` lines, `+++`
lines, non-matching hunk lines, lines outside a file section, empty lines
and dropped other-marker lines all leave them unchanged — so a file
section whose hunk header is missing or fails the pattern inherits the
counters left by the previous section. -/
theorem counter_evolution :
    (∀ (st : ParseState) (l : String), pyStartsWith l "diff --git" = true →
      (parseLine st l).old_line_no = st.old_line_no ∧
      (parseLine st l).new_line_no = st.new_line_no) ∧
    (∀ (st : ParseState) (l : String), pyStartsWith l "diff --git" = false →
      pyStartsWith l "+++" = true →
      (parseLine st l).old_line_no = st.old_line_no ∧
      (parseLine st l).new_line_no = st.new_line_no) ∧
    (∀ (st : ParseState) (l : String) (o n : Nat),
      pyStartsWith l "diff --git" = false → pyStartsWith l "+++" = false →
      pyStartsWith l "@@" = true → matchHunk l = some (o, n) →
      (parseLine st l).old_line_no = o ∧ (parseLine st l).new_line_no = n) ∧
    (∀ (st : ParseState) (l : String),
      pyStartsWith l "diff --git" = false → pyStartsWith l "+++" = false →
      pyStartsWith l "@@" = true → matchHunk l = none →
      (parseLine st l).old_line_no = st.old_line_no ∧
      (parseLine st l).new_line_no = st.new_line_no) ∧
    (∀ (st : ParseState) (l : String),
      pyStartsWith l "diff --git" = false → pyStartsWith l "+++" = false →
      pyStartsWith l "@@" = false → (st.current_file = none ∨ l = "") →
      (parseLine st l).old_line_no = st.old_line_no ∧
      (parseLine st l).new_line_no = st.new_line_no) ∧
    (∀ (st : ParseState) (f : DiffFile) (l : String),
      pyStartsWith l "diff --git" = false → pyStartsWith l "+++" = false →
      pyStartsWith l "@@" = false → st.current_file = some f → ¬ l = "" →
      (pyStartsWith l "+" = true →
        (parseLine st l).old_line_no = st.old_line_no ∧
        (parseLine st l).new_line_no = st.new_line_no + 1) ∧
      (pyStartsWith l "+" = false → pyStartsWith l "-" = true →
        (parseLine st l).old_line_no = st.old_line_no + 1 ∧
        (parseLine st l).new_line_no = st.new_line_no) ∧
      (pyStartsWith l "+" = false → pyStartsWith l "-" = false →
        pyStartsWith l " " = true →
        (parseLine st l).old_line_no = st.old_line_no + 1 ∧
        (parseLine st l).new_line_no = st.new_line_no + 1) ∧
      (pyStartsWith l "+" = false → pyStartsWith l "-" = false →
        pyStartsWith l " " = false →
        (parseLine st l).old_line_no = st.old_line_no ∧
        (parseLine st l).new_line_no = st.new_line_no)) := by
  refine ⟨?_, ?_, ?_, ?_, ?_, ?_⟩
  · intro st l h1
    constructor <;> simp [parseLine, h1]
  · intro st l h1 h2
    constructor <;> simp [parseLine, h1, h2]
  · intro st l o n h1 h2 h3 hm
    simp only [parseLine, h1, h2, h3, Bool.false_eq_true, if_false, if_true]
    exact hunkStep_counters_some st l o n hm
  · intro st l h1 h2 h3 hm
    simp only [parseLine, h1, h2, h3, Bool.false_eq_true, if_false, if_true]
    exact hunkStep_counters_none st l hm
  · intro st l h1 h2 h3 hd
    rcases hd with hd | hd
    · constructor <;> simp [parseLine, contentStep, h1, h2, h3, hd]
    · subst hd
      rcases st with ⟨fs, cf, ch, ol, nl⟩
      cases cf <;> constructor <;> simp [parseLine, contentStep, h1, h2, h3]
  · intro st f l h1 h2 h3 hcf he
    refine ⟨?_, ?_, ?_, ?_⟩
    · intro hp
      constructor <;>
        simp [parseLine, contentStep, addedResult, h1, h2, h3, hcf, he, hp]
    · intro hp hm
      constructor <;>
        simp [parseLine, contentStep, removedResult, h1, h2, h3, hcf, he, hp, hm]
    · intro hp hm hs
      constructor <;>
        simp [parseLine, contentStep, contextResult, h1, h2, h3, hcf, he, hp, hm, hs]
    · intro hp hm hs
      constructor <;>
        simp [parseLine, contentStep, h1, h2, h3, hcf, he, hp, hm, hs]

/-- C10 witness: each counter case at a concrete state and line — file
separator, file header, matching hunk line (reset to 3 and 7),
non-matching hunk line, skipped line outside a section, and the four
content cases. -/
theorem counter_evolution_witness :
    (parseLine stW "diff --git a/q b/q").old_line_no = stW.old_line_no ∧
    (parseLine stW "diff --git a/q b/q").new_line_no = stW.new_line_no ∧
    (parseLine stW "+++ b/q").old_line_no = stW.old_line_no ∧
    (parseLine stW "+++ b/q").new_line_no = stW.new_line_no ∧
    (parseLine stW "@@ -3,1 +7,2 @@").old_line_no = 3 ∧
    (parseLine stW "@@ -3,1 +7,2 @@").new_line_no = 7 ∧
    (parseLine stW "@@ nonsense").old_line_no = stW.old_line_no ∧
    (parseLine stW "@@ nonsense").new_line_no = stW.new_line_no ∧
    (parseLine initState "zzz").old_line_no = initState.old_line_no ∧
    (parseLine initState "zzz").new_line_no = initState.new_line_no ∧
    (parseLine stW "+a").old_line_no = stW.old_line_no ∧
    (parseLine stW "+a").new_line_no = stW.new_line_no + 1 ∧
    (parseLine stW "-b").old_line_no = stW.old_line_no + 1 ∧
    (parseLine stW "-b").new_line_no = stW.new_line_no ∧
    (parseLine stW " c").old_line_no = stW.old_line_no + 1 ∧
    (parseLine stW " c").new_line_no = stW.new_line_no + 1 ∧
    (parseLine stW "zzz").old_line_no = stW.old_line_no ∧
    (parseLine stW "zzz").new_line_no = stW.new_line_no := by
  have h1 := counter_evolution.1 stW "diff --git a/q b/q" (by decide)
  have h2 := counter_evolution.2.1 stW "+++ b/q" (by decide) (by decide)
  have h3 := counter_evolution.2.2.1 stW "@@ -3,1 +7,2 @@" 3 7 (by decide) (by decide)
    (by decide) (by decide)
  have h4 := counter_evolution.2.2.2.1 stW "@@ nonsense" (by decide) (by decide)
    (by decide) (by decide)
  have h5 := counter_evolution.2.2.2.2.1 initState "zzz" (by decide) (by decide)
    (by decide) (Or.inl rfl)
  have h6 := counter_evolution.2.2.2.2.2 stW fW "+a" (by decide) (by decide)
    (by decide) rfl (by decide)
  have h7 := counter_evolution.2.2.2.2.2 stW fW "-b" (by decide) (by decide)
    (by decide) rfl (by decide)
  have h8 := counter_evolution.2.2.2.2.2 stW fW " c" (by decide) (by decide)
    (by decide) rfl (by decide)
  have h9 := counter_evolution.2.2.2.2.2 stW fW "zzz" (by decide) (by decide)
    (by decide) rfl (by decide)
  refine ⟨h1.1, h1.2, h2.1, h2.2, h3.1, h3.2, h4.1, h4.2, h5.1, h5.2, ?_, ?_, ?_, ?_,
    ?_, ?_, ?_, ?_⟩
  · exact (h6.1 (by decide)).1
  · exact (h6.1 (by decide)).2
  · exact (h7.2.1 (by decide) (by decide)).1
  · exact (h7.2.1 (by decide) (by decide)).2
  · exact (h8.2.2.1 (by decide) (by decide) (by decide)).1
  · exact (h8.2.2.1 (by decide) (by decide) (by decide)).2
  · exact (h9.2.2.2 (by decide) (by decide) (by decide)).1
  · exact (h9.2.2.2 (by decide) (by decide) (by decide)).2
